import Mathlib

/-!
Shallow embedding of the RemindMe bot core (src/bot.py): the SQLite-backed
task/note/user store, the reminder-marker bookkeeping, the check-in button
handler and the feedback-tier algorithm, together with proofs of the spec's
claims about them.

The SQLite database is modelled as a `DB` structure holding the three tables
as lists of rows plus the AUTOINCREMENT counter for `tasks.task_id`.  Each
Python helper in src/bot.py becomes a pure Lean function on `DB`.
-/

namespace RemindMe

/-- A row of the `users` table: `user_id` (primary key), `chat_id`, and the
two nullable last-sent date markers `last_6pm_date`, `last_1150_date`. -/
structure UserRow where
  user_id : Nat
  chat_id : Nat
  last_6pm : Option String
  last_1150 : Option String
deriving Repr, DecidableEq

/-- A row of the `tasks` table: `task_id` (AUTOINCREMENT primary key),
owner `user_id`, `date` (YYYY-MM-DD string), `text`, `done` flag
(INTEGER 0/1 in SQLite, `Bool` here). -/
structure Task where
  task_id : Nat
  user_id : Nat
  day : String
  text : String
  done : Bool
deriving Repr, DecidableEq

/-- A row of the `notes` table: key `(user_id, date)`, value `note`. -/
structure NoteRow where
  user_id : Nat
  day : String
  note : String
deriving Repr, DecidableEq

/-- The whole database: the three tables plus the next AUTOINCREMENT value
for `tasks.task_id` (SQLite never reuses these). -/
structure DB where
  users : List UserRow
  tasks : List Task
  notes : List NoteRow
  nextId : Nat
deriving Repr, DecidableEq

/-- Well-formedness maintained by SQLite: `task_id`s are distinct and below
the AUTOINCREMENT counter, and `user_id` is a primary key. -/
def DB.WF (db : DB) : Prop :=
  (db.tasks.map (·.task_id)).Nodup ∧
  (∀ t ∈ db.tasks, t.task_id < db.nextId) ∧
  (db.users.map (·.user_id)).Nodup

instance (db : DB) : Decidable db.WF := by
  unfold DB.WF; infer_instance

/-- The five feedback tiers, one per string returned by `feedback_text` in
src/bot.py (lines 237-247), in source order. -/
inductive FeedbackTier where
  | noTasks
  | complete
  | nearComplete
  | someEffort
  | encouragement
deriving Repr, DecidableEq

/-- `feedback_text(done, total)` from src/bot.py: the branch structure is
exactly the source's; the float division `done / total` is modelled as exact
rational division (the inputs are small counts, for which the comparison
against 0.7 agrees). -/
def feedback_text (done total : Nat) : FeedbackTier :=
  if total = 0 then .noTasks
  else if done = total then .complete
  else
    let ratio : ℚ := (done : ℚ) / (total : ℚ)
    if ratio ≥ 7/10 then .nearComplete
    else if ratio > 0 then .someEffort
    else .encouragement

/-- Python's `str.strip()` (used on command arguments): drop leading and
trailing whitespace characters. -/
def strip (s : String) : String :=
  ⟨((s.data.dropWhile Char.isWhitespace).reverse.dropWhile Char.isWhitespace).reverse⟩

/-- `upsert_user(user_id, chat_id)` (src/bot.py lines 115-123):
`INSERT .. ON CONFLICT(user_id) DO UPDATE SET chat_id=excluded.chat_id` —
if a row for `user_id` exists only its `chat_id` is rewritten, otherwise a
fresh row with NULL markers is appended. -/
def upsert_user (db : DB) (uid cid : Nat) : DB :=
  if db.users.any (fun u => u.user_id == uid) then
    { db with users := db.users.map (fun u => if u.user_id == uid then { u with chat_id := cid } else u) }
  else
    { db with users := db.users ++ [⟨uid, cid, none, none⟩] }

/-- Insert a task into a list sorted by ascending `task_id` (the model of
SQL `ORDER BY task_id ASC`). -/
def insertByTaskId (t : Task) : List Task → List Task
  | [] => [t]
  | u :: us => if t.task_id ≤ u.task_id then t :: u :: us else u :: insertByTaskId t us

/-- Sort a list of tasks by ascending `task_id` (insertion sort). -/
def sortByTaskId : List Task → List Task
  | [] => []
  | t :: ts => insertByTaskId t (sortByTaskId ts)

/-- `list_tasks(user_id, date_str)` (src/bot.py lines 126-131):
`SELECT .. FROM tasks WHERE user_id=? AND date=? ORDER BY task_id ASC`. -/
def list_tasks (db : DB) (uid : Nat) (day : String) : List Task :=
  sortByTaskId (db.tasks.filter (fun t => t.user_id == uid && t.day == day))

/-- `add_task(user_id, date_str, text)` (src/bot.py lines 134-136):
`INSERT INTO tasks(user_id, date, text) VALUES (?, ?, ?)` — `done` defaults
to 0 and `task_id` is the next AUTOINCREMENT value. -/
def add_task (db : DB) (uid : Nat) (day txt : String) : DB :=
  { db with tasks := db.tasks ++ [⟨db.nextId, uid, day, txt, false⟩],
            nextId := db.nextId + 1 }

/-- `delete_task(task_id)` (src/bot.py lines 139-141):
`DELETE FROM tasks WHERE task_id=?`. -/
def delete_task (db : DB) (tid : Nat) : DB :=
  { db with tasks := db.tasks.filter (fun t => !(t.task_id == tid)) }

/-- `delete_all_tasks_for_day(user_id, date_str)` (src/bot.py lines 144-147):
`DELETE FROM tasks WHERE user_id=? AND date=?`, returning `cur.rowcount`. -/
def delete_all_tasks_for_day (db : DB) (uid : Nat) (day : String) : DB × Nat :=
  ({ db with tasks := db.tasks.filter (fun t => !(t.user_id == uid && t.day == day)) },
   (db.tasks.filter (fun t => t.user_id == uid && t.day == day)).length)

/-- `toggle_task(task_id)` (src/bot.py lines 150-152):
`UPDATE tasks SET done = CASE done WHEN 1 THEN 0 ELSE 1 END WHERE task_id=?`. -/
def toggle_task (db : DB) (tid : Nat) : DB :=
  { db with tasks := db.tasks.map (fun t => if t.task_id == tid then { t with done := !t.done } else t) }

/-- `task_belongs_to_user_today(user_id, task_id, date_str)` (src/bot.py
lines 155-160): `SELECT 1 FROM tasks WHERE user_id=? AND date=? AND
task_id=? LIMIT 1` is non-empty. -/
def task_belongs_to_user_today (db : DB) (uid tid : Nat) (day : String) : Bool :=
  db.tasks.any (fun t => t.user_id == uid && t.day == day && t.task_id == tid)

/-- `set_last_sent(user_id, which, date_str)` (src/bot.py lines 163-168):
updates `last_6pm_date` when `which == "6pm"`, `last_1150_date` when
`which == "1150"`, and nothing otherwise. -/
def set_last_sent (db : DB) (uid : Nat) (which day : String) : DB :=
  if which = "6pm" then
    { db with users := db.users.map (fun u => if u.user_id == uid then { u with last_6pm := some day } else u) }
  else if which = "1150" then
    { db with users := db.users.map (fun u => if u.user_id == uid then { u with last_1150 := some day } else u) }
  else db

/-- `due_users(which, date_str)` (src/bot.py lines 171-182): rows whose
marker for the kind `IS NULL OR <> date_str`, projected to
`(user_id, chat_id)`; any `which` other than `"6pm"` selects the 11:50
marker, exactly as the source's `else` branch does. -/
def due_users (db : DB) (which day : String) : List (Nat × Nat) :=
  if which = "6pm" then
    (db.users.filter (fun u => u.last_6pm.isNone || !(u.last_6pm == some day))).map
      (fun u => (u.user_id, u.chat_id))
  else
    (db.users.filter (fun u => u.last_1150.isNone || !(u.last_1150 == some day))).map
      (fun u => (u.user_id, u.chat_id))

/-- `set_note(user_id, date_str, note)` (src/bot.py lines 185-193):
`INSERT .. ON CONFLICT(user_id, date) DO UPDATE SET note=excluded.note`. -/
def set_note (db : DB) (uid : Nat) (day txt : String) : DB :=
  if db.notes.any (fun n => n.user_id == uid && n.day == day) then
    { db with notes := db.notes.map (fun n => if n.user_id == uid && n.day == day then { n with note := txt } else n) }
  else
    { db with notes := db.notes ++ [⟨uid, day, txt⟩] }

/-- `get_note(user_id, date_str)` (src/bot.py lines 196-199): the note for
the key, or `none` when no row exists. -/
def get_note (db : DB) (uid : Nat) (day : String) : Option String :=
  (db.notes.find? (fun n => n.user_id == uid && n.day == day)).map (·.note)

/-- `delete_note(user_id, date_str)` (src/bot.py lines 202-204):
`DELETE FROM notes WHERE user_id=? AND date=?`. -/
def delete_note (db : DB) (uid : Nat) (day : String) : DB :=
  { db with notes := db.notes.filter (fun n => !(n.user_id == uid && n.day == day)) }

/-- `add_command` (src/bot.py lines 286-298): upserts the user, joins and
strips the arguments, replies with a usage message (mutating nothing
further) when the stripped text is empty, and otherwise inserts the task
for today.  The returned `Bool` records whether a task was added. -/
def add_command (db : DB) (uid cid : Nat) (day rawText : String) : DB × Bool :=
  let db1 := upsert_user db uid cid
  let txt := strip rawText
  if txt = "" then (db1, false)
  else (add_task db1 uid day txt, true)

/-- `del_command` (src/bot.py lines 323-344), after its argument parsing:
upserts the user, checks `task_belongs_to_user_today`, and deletes only on
success.  The returned `Bool` records whether the delete happened. -/
def del_command (db : DB) (uid cid tid : Nat) (day : String) : DB × Bool :=
  let db1 := upsert_user db uid cid
  if task_belongs_to_user_today db1 uid tid day then (delete_task db1 tid, true)
  else (db1, false)

/-- `reset_command` (src/bot.py lines 347-355): upserts the user, deletes
all of today's tasks (keeping the count for the reply) and today's note. -/
def reset_command (db : DB) (uid cid : Nat) (day : String) : DB × Nat :=
  let db1 := upsert_user db uid cid
  let p := delete_all_tasks_for_day db1 uid day
  (delete_note p.1 uid day, p.2)

/-- `note_command` (src/bot.py lines 358-370): upserts the user, strips the
text, saves the note only when non-empty. -/
def note_command (db : DB) (uid cid : Nat) (day rawText : String) : DB × Bool :=
  let db1 := upsert_user db uid cid
  let txt := strip rawText
  if txt = "" then (db1, false)
  else (set_note db1 uid day txt, true)

/-- The callback data a button tap carries to `on_button`: `"t:<task_id>"`,
`"summary"`, or `"finalize"`. -/
inductive ButtonData where
  | toggle (tid : Nat)
  | summary
  | finalize
deriving Repr, DecidableEq

/-- What `on_button` shows the user in each branch. -/
inductive ButtonResult where
  | notAllowed
  | toggled (tasks : List Task)
  | summaryShown (done total : Nat)
  | finalized (done total : Nat) (tier : FeedbackTier) (note : Option String)
deriving Repr, DecidableEq

/-- `on_button` (src/bot.py lines 385-425): the toggle branch authorizes via
`task_belongs_to_user_today` and refuses (mutating nothing) on failure;
`summary` and `finalize` only read.  `done` counts tasks with `done == 1`,
`total` is the list length, exactly as the source computes them. -/
def on_button (db : DB) (uid : Nat) (day : String) (data : ButtonData) :
    DB × ButtonResult :=
  match data with
  | .toggle tid =>
    if task_belongs_to_user_today db uid tid day then
      let db1 := toggle_task db tid
      (db1, .toggled (list_tasks db1 uid day))
    else (db, .notAllowed)
  | .summary =>
    let ts := list_tasks db uid day
    (db, .summaryShown (ts.countP (fun t => t.done)) ts.length)
  | .finalize =>
    let ts := list_tasks db uid day
    let total := ts.length
    let done := ts.countP (fun t => t.done)
    (db, .finalized done total (feedback_text done total) (get_note db uid day))

/-- `job_6pm` / `job_1150` (src/bot.py lines 446-465): compute the due list
once, then for each entry attempt the send and mark only on success; a
failed send is swallowed (`except Exception: pass`) and the loop continues.
The outcome of each dispatch is an oracle `sendOk` on the user id. -/
def run_job (db : DB) (which day : String) (sendOk : Nat → Bool) : DB :=
  (due_users db which day).foldl
    (fun acc u => if sendOk u.1 then set_last_sent acc u.1 which day else acc) db

/-- The marker a kind reads/writes, for stating properties uniformly. -/
def UserRow.marker (u : UserRow) (which : String) : Option String :=
  if which = "6pm" then u.last_6pm else u.last_1150

/-- The unique `users` row for a `user_id`, if any. -/
def findUser (db : DB) (uid : Nat) : Option UserRow :=
  db.users.find? (fun u => u.user_id == uid)

/-- The row rewrite `set_last_sent` performs on the matching user: set the
kind's marker to the day (and do nothing for an unknown kind, as the
source's if/elif chain does). -/
def setMarker (which day : String) (u : UserRow) : UserRow :=
  if which = "6pm" then { u with last_6pm := some day }
  else if which = "1150" then { u with last_1150 := some day }
  else u

/-! ### Lemmas about the `ORDER BY task_id ASC` model -/

theorem insertByTaskId_perm (t : Task) (l : List Task) :
    List.Perm (insertByTaskId t l) (t :: l) := by
  induction l with
  | nil => simp [insertByTaskId]
  | cons u us ih =>
    rw [insertByTaskId]
    by_cases hle : t.task_id ≤ u.task_id
    · rw [if_pos hle]
    · rw [if_neg hle]
      exact List.Perm.trans (ih.cons u) (List.Perm.swap t u us)

theorem sortByTaskId_perm (l : List Task) : List.Perm (sortByTaskId l) l := by
  induction l with
  | nil => simp [sortByTaskId]
  | cons t ts ih =>
    exact List.Perm.trans (insertByTaskId_perm t _) (ih.cons t)

theorem mem_sortByTaskId {a : Task} {l : List Task} :
    a ∈ sortByTaskId l ↔ a ∈ l :=
  (sortByTaskId_perm l).mem_iff

theorem pairwise_insertByTaskId (t : Task) (l : List Task)
    (h : l.Pairwise (fun a b => a.task_id ≤ b.task_id)) :
    (insertByTaskId t l).Pairwise (fun a b => a.task_id ≤ b.task_id) := by
  induction l with
  | nil => simp [insertByTaskId]
  | cons u us ih =>
    rw [insertByTaskId]
    by_cases hle : t.task_id ≤ u.task_id
    · rw [if_pos hle]
      refine List.Pairwise.cons ?_ h
      intro b hb
      rcases List.mem_cons.mp hb with rfl | hb
      · exact hle
      · exact le_trans hle (List.rel_of_pairwise_cons h hb)
    · rw [if_neg hle]
      rcases List.pairwise_cons.mp h with ⟨hu, hus⟩
      refine List.Pairwise.cons ?_ (ih hus)
      intro b hb
      rcases List.mem_cons.mp ((insertByTaskId_perm t us).mem_iff.mp hb) with rfl | hb2
      · exact le_of_not_le hle
      · exact hu b hb2

theorem pairwise_sortByTaskId (l : List Task) :
    (sortByTaskId l).Pairwise (fun a b => a.task_id ≤ b.task_id) := by
  induction l with
  | nil => simp [sortByTaskId]
  | cons t ts ih => exact pairwise_insertByTaskId t _ ih

/-- C1: on every pair `done ≤ total`, `feedback_text` picks the tier by the
spec's five conditions in order; the float comparison `done/total >= 0.7`
coincides with the exact condition `7 * total ≤ 10 * done`, and
`ratio > 0` with `0 < done`. -/
theorem feedback_text_eq_spec (done total : Nat) (h : done ≤ total) :
    feedback_text done total =
      if total = 0 then .noTasks
      else if done = total then .complete
      else if 7 * total ≤ 10 * done then .nearComplete
      else if 0 < done then .someEffort
      else .encouragement := by
  by_cases ht : total = 0
  · simp [feedback_text, ht]
  · have htq : (0 : ℚ) < (total : ℚ) := by
      exact_mod_cast Nat.pos_of_ne_zero ht
    have h1 : ((7 : ℚ)/10 ≤ (done : ℚ)/(total : ℚ)) ↔ 7 * total ≤ 10 * done := by
      rw [div_le_div_iff₀ (by norm_num) htq]
      constructor
      · intro hq
        have : (7 * total : ℚ) ≤ (10 * done : ℚ) := by push_cast; linarith
        exact_mod_cast this
      · intro hn
        have : (7 * total : ℚ) ≤ (10 * done : ℚ) := by exact_mod_cast hn
        linarith
    have h2 : ((0 : ℚ) < (done : ℚ)/(total : ℚ)) ↔ 0 < done := by
      rw [div_pos_iff]
      constructor
      · rintro (⟨hd, -⟩ | ⟨hd, htneg⟩)
        · exact_mod_cast hd
        · exact absurd htq (not_lt.mpr (le_of_lt htneg))
      · intro hd
        exact Or.inl ⟨by exact_mod_cast hd, htq⟩
    simp only [feedback_text, ge_iff_le, gt_iff_lt, if_neg ht]
    by_cases hdt : done = total
    · simp [hdt]
    · rw [if_neg hdt, if_neg hdt]
      by_cases h7 : 7 * total ≤ 10 * done
      · rw [if_pos (h1.mpr h7), if_pos h7]
      · rw [if_neg (fun hq => h7 (h1.mp hq)), if_neg h7]
        by_cases hd0 : 0 < done
        · rw [if_pos (h2.mpr hd0), if_pos hd0]
        · rw [if_neg (fun hq => hd0 (h2.mp hq)), if_neg hd0]

/-- C1 witness: the theorem applied at the boundary pair `(7, 10)` yields the
near-complete tier (the 0.7 boundary is inclusive). -/
theorem feedback_text_eq_spec_witness :
    feedback_text 7 10 = .nearComplete := by
  have h := feedback_text_eq_spec 7 10 (by decide)
  simpa using h

/-- C6: `list_tasks` returns exactly the given user's tasks for the given
day, strictly ascending in `task_id` (creation order), the empty list when
there are none, and a task created for one day never appears in the list
for another day. -/
theorem list_tasks_spec (db : DB) (uid : Nat) (day : String) (hwf : db.WF) :
    (∀ t : Task, t ∈ list_tasks db uid day ↔
       t ∈ db.tasks ∧ t.user_id = uid ∧ t.day = day) ∧
    (list_tasks db uid day).Pairwise (fun a b => a.task_id < b.task_id) ∧
    ((∀ t ∈ db.tasks, ¬(t.user_id = uid ∧ t.day = day)) →
       list_tasks db uid day = []) ∧
    (∀ t ∈ db.tasks, t.day ≠ day → t ∉ list_tasks db uid day) := by
  obtain ⟨hnd, -, -⟩ := hwf
  have hmem : ∀ t : Task, t ∈ list_tasks db uid day ↔
      t ∈ db.tasks ∧ t.user_id = uid ∧ t.day = day := by
    intro t
    simp [list_tasks, mem_sortByTaskId, List.mem_filter]
  refine ⟨hmem, ?_, ?_, ?_⟩
  · have hle := pairwise_sortByTaskId
      (db.tasks.filter (fun t => t.user_id == uid && t.day == day))
    have hsub : ((db.tasks.filter
        (fun t => t.user_id == uid && t.day == day)).map (·.task_id)).Nodup :=
      hnd.sublist ((List.filter_sublist _).map _)
    have hndsort : ((sortByTaskId (db.tasks.filter
        (fun t => t.user_id == uid && t.day == day))).map (·.task_id)).Nodup :=
      (((sortByTaskId_perm _).map (·.task_id)).nodup_iff).mpr hsub
    have hne := List.pairwise_map.mp hndsort
    exact (hle.and hne).imp (fun hab => lt_of_le_of_ne hab.1 hab.2)
  · intro hnone
    have hfil : db.tasks.filter (fun t => t.user_id == uid && t.day == day) = [] := by
      rw [List.filter_eq_nil_iff]
      intro t ht hpt
      exact hnone t ht (by simpa using hpt)
    simp [list_tasks, hfil, sortByTaskId]
  · intro t ht hday hmem2
    exact hday ((hmem t).mp hmem2).2.2

/-- C6 witness: in a store holding a task for 2024-01-02 and one for
2024-01-01 (same owner), the 2024-01-02 task is absent from the
2024-01-01 list. -/
theorem list_tasks_spec_witness :
    (⟨1, 1, "2024-01-02", "b", false⟩ : Task) ∉
      list_tasks ⟨[], [⟨1, 1, "2024-01-02", "b", false⟩,
        ⟨2, 1, "2024-01-01", "a", false⟩], [], 3⟩ 1 "2024-01-01" := by
  have h := list_tasks_spec
    ⟨[], [⟨1, 1, "2024-01-02", "b", false⟩, ⟨2, 1, "2024-01-01", "a", false⟩], [], 3⟩
    1 "2024-01-01" (by decide)
  exact h.2.2.2 _ (by simp) (by decide)

/-- C4: toggling the same task twice restores the database exactly; a single
toggle rewrites the task list pointwise, flipping `done` on the targeted
`task_id` and leaving every task's id, owner, day and text (and the other
tables) unchanged. -/
theorem toggle_task_spec (db : DB) (tid : Nat) :
    toggle_task (toggle_task db tid) tid = db ∧
    (toggle_task db tid).users = db.users ∧
    (toggle_task db tid).notes = db.notes ∧
    (toggle_task db tid).nextId = db.nextId ∧
    ∃ f : Task → Task, (toggle_task db tid).tasks = db.tasks.map f ∧
      ∀ t : Task, (f t).task_id = t.task_id ∧ (f t).user_id = t.user_id ∧
        (f t).day = t.day ∧ (f t).text = t.text ∧
        (f t).done = (if t.task_id = tid then !t.done else t.done) := by
  refine ⟨?_, rfl, rfl, rfl, ?_⟩
  · show ({ db with tasks := _ } : DB) = db
    have htasks : ((db.tasks.map
          (fun t => if t.task_id == tid then { t with done := !t.done } else t)).map
          (fun t => if t.task_id == tid then { t with done := !t.done } else t)) = db.tasks := by
      rw [List.map_map]
      have hid : ∀ t : Task,
          ((fun t => if t.task_id == tid then { t with done := !t.done } else t) ∘
           (fun t => if t.task_id == tid then { t with done := !t.done } else t)) t = t := by
        intro t
        by_cases h : t.task_id = tid
        · subst h; simp
        · simp [h]
      calc db.tasks.map _ = db.tasks.map id := List.map_congr_left (fun t _ => hid t)
        _ = db.tasks := List.map_id db.tasks
    simp only [toggle_task]
    rw [htasks]
  · refine ⟨fun t => if t.task_id == tid then { t with done := !t.done } else t, rfl, ?_⟩
    intro t
    by_cases h : t.task_id == tid
    · have h' : t.task_id = tid := by simpa using h
      simp [h, h']
    · have h' : ¬t.task_id = tid := by simpa using h
      simp [h, h']

/-! ### Frame lemmas for `upsert_user` -/

theorem upsert_user_tasks (db : DB) (uid cid : Nat) :
    (upsert_user db uid cid).tasks = db.tasks := by
  unfold upsert_user; split <;> rfl

theorem upsert_user_notes (db : DB) (uid cid : Nat) :
    (upsert_user db uid cid).notes = db.notes := by
  unfold upsert_user; split <;> rfl

theorem upsert_user_nextId (db : DB) (uid cid : Nat) :
    (upsert_user db uid cid).nextId = db.nextId := by
  unfold upsert_user; split <;> rfl

theorem task_unique_id {db : DB} (hnd : (db.tasks.map (·.task_id)).Nodup)
    {s t : Task} (hs : s ∈ db.tasks) (ht : t ∈ db.tasks)
    (h : s.task_id = t.task_id) : s = t :=
  List.inj_on_of_nodup_map hnd hs ht h

theorem belongs_upsert (db : DB) (uid cid u2 tid : Nat) (day : String) :
    task_belongs_to_user_today (upsert_user db uid cid) u2 tid day =
      task_belongs_to_user_today db u2 tid day := by
  unfold task_belongs_to_user_today
  rw [upsert_user_tasks]

/-- C3: `task_belongs_to_user_today` holds exactly when a task with the
given id exists, is owned by the caller, and is dated the given day; it is
false for another user's task, a nonexistent id, or a task of another day,
and whenever it is false both the button-toggle and the delete command are
refused without touching any task. -/
theorem belongs_to_user_spec (db : DB) (uid cid tid : Nat) (day : String)
    (hwf : db.WF) :
    (task_belongs_to_user_today db uid tid day = true ↔
       ∃ t ∈ db.tasks, t.user_id = uid ∧ t.day = day ∧ t.task_id = tid) ∧
    (∀ u1 : Nat, ∀ t ∈ db.tasks, t.user_id = u1 → t.task_id = tid → u1 ≠ uid →
       task_belongs_to_user_today db uid tid day = false) ∧
    ((∀ t ∈ db.tasks, t.task_id ≠ tid) →
       task_belongs_to_user_today db uid tid day = false) ∧
    (∀ t ∈ db.tasks, t.task_id = tid → t.day ≠ day →
       task_belongs_to_user_today db uid tid day = false) ∧
    (task_belongs_to_user_today db uid tid day = false →
       on_button db uid day (.toggle tid) = (db, .notAllowed) ∧
       (del_command db uid cid tid day).1.tasks = db.tasks ∧
       (del_command db uid cid tid day).2 = false) := by
  obtain ⟨hnd, -, -⟩ := hwf
  have hiff : task_belongs_to_user_today db uid tid day = true ↔
      ∃ t ∈ db.tasks, t.user_id = uid ∧ t.day = day ∧ t.task_id = tid := by
    simp [task_belongs_to_user_today, List.any_eq_true, and_assoc]
  refine ⟨hiff, ?_, ?_, ?_, ?_⟩
  · intro u1 t ht hu1 htid hne
    cases hb : task_belongs_to_user_today db uid tid day with
    | false => rfl
    | true =>
      exfalso
      obtain ⟨s, hs, h1, -, h3⟩ := hiff.mp hb
      have : s = t := task_unique_id hnd hs ht (h3.trans htid.symm)
      exact hne (hu1.symm.trans (this ▸ h1))
  · intro hnone
    cases hb : task_belongs_to_user_today db uid tid day with
    | false => rfl
    | true =>
      exfalso
      obtain ⟨s, hs, -, -, h3⟩ := hiff.mp hb
      exact hnone s hs h3
  · intro t ht htid hday
    cases hb : task_belongs_to_user_today db uid tid day with
    | false => rfl
    | true =>
      exfalso
      obtain ⟨s, hs, -, h2, h3⟩ := hiff.mp hb
      have : s = t := task_unique_id hnd hs ht (h3.trans htid.symm)
      exact hday (this ▸ h2)
  · intro hb
    refine ⟨?_, ?_, ?_⟩
    · simp [on_button, hb]
    · simp only [del_command]
      rw [belongs_upsert, hb]
      simp [upsert_user_tasks]
    · simp only [del_command]
      rw [belongs_upsert, hb]
      simp

/-- C3 witness: with a single task owned by user 1, user 2's toggle tap on
it is refused and the database is untouched. -/
theorem belongs_to_user_spec_witness :
    task_belongs_to_user_today
      ⟨[], [⟨1, 1, "2024-01-01", "gym", false⟩], [], 2⟩ 2 1 "2024-01-01" = false ∧
    on_button ⟨[], [⟨1, 1, "2024-01-01", "gym", false⟩], [], 2⟩ 2 "2024-01-01"
      (.toggle 1) =
      (⟨[], [⟨1, 1, "2024-01-01", "gym", false⟩], [], 2⟩, .notAllowed) := by
  have h := belongs_to_user_spec
    ⟨[], [⟨1, 1, "2024-01-01", "gym", false⟩], [], 2⟩ 2 7 1 "2024-01-01" (by decide)
  have hf := h.2.1 1 ⟨1, 1, "2024-01-01", "gym", false⟩ (by simp) rfl rfl (by decide)
  exact ⟨hf, (h.2.2.2.2 hf).1⟩

theorem find?_filter_of_imp {α : Type} (l : List α) (p q : α → Bool)
    (h : ∀ a, p a = true → q a = true) :
    (l.filter q).find? p = l.find? p := by
  induction l with
  | nil => rfl
  | cons a l ih =>
    by_cases hp : p a = true
    · rw [List.filter_cons, if_pos (h a hp), List.find?_cons_of_pos _ hp,
        List.find?_cons_of_pos _ hp]
    · by_cases hq : q a = true
      · rw [List.filter_cons, if_pos hq, List.find?_cons_of_neg _ hp,
          List.find?_cons_of_neg _ hp, ih]
      · rw [List.filter_cons, if_neg hq, List.find?_cons_of_neg _ hp, ih]

/-- C7: the reset command empties the user's task list and note for the day,
reports the number of tasks removed (0 included), and leaves every task and
note of other users or other days in place. -/
theorem reset_command_spec (db : DB) (uid cid : Nat) (day : String) :
    list_tasks (reset_command db uid cid day).1 uid day = [] ∧
    get_note (reset_command db uid cid day).1 uid day = none ∧
    (reset_command db uid cid day).2 =
      (db.tasks.filter (fun t => t.user_id == uid && t.day == day)).length ∧
    (∀ t ∈ db.tasks, ¬(t.user_id = uid ∧ t.day = day) →
       t ∈ (reset_command db uid cid day).1.tasks) ∧
    (∀ t ∈ (reset_command db uid cid day).1.tasks, t ∈ db.tasks) ∧
    (∀ u : Nat, ∀ d : String, ¬(u = uid ∧ d = day) →
       get_note (reset_command db uid cid day).1 u d = get_note db u d) := by
  have htasks : (reset_command db uid cid day).1.tasks =
      db.tasks.filter (fun t => !(t.user_id == uid && t.day == day)) := by
    simp [reset_command, delete_note, delete_all_tasks_for_day, upsert_user_tasks]
  have hnotes : (reset_command db uid cid day).1.notes =
      db.notes.filter (fun n => !(n.user_id == uid && n.day == day)) := by
    simp [reset_command, delete_note, delete_all_tasks_for_day, upsert_user_notes]
  refine ⟨?_, ?_, ?_, ?_, ?_, ?_⟩
  · have hfil : (reset_command db uid cid day).1.tasks.filter
        (fun t => t.user_id == uid && t.day == day) = [] := by
      rw [htasks, List.filter_eq_nil_iff]
      intro t ht hpt
      have := (List.mem_filter.mp ht).2
      rw [hpt] at this
      simp at this
    simp [list_tasks, hfil, sortByTaskId]
  · rw [get_note, hnotes]
    have : (db.notes.filter (fun n => !(n.user_id == uid && n.day == day))).find?
        (fun n => n.user_id == uid && n.day == day) = none := by
      rw [List.find?_eq_none]
      intro n hn hpn
      have := (List.mem_filter.mp hn).2
      rw [hpn] at this
      simp at this
    rw [this]
    rfl
  · simp [reset_command, delete_note, delete_all_tasks_for_day, upsert_user_tasks]
  · intro t ht hnot
    rw [htasks, List.mem_filter]
    refine ⟨ht, ?_⟩
    simp only [Bool.not_eq_true']
    rw [Bool.and_eq_false_iff]
    by_cases hu : t.user_id = uid
    · right
      rw [beq_eq_false_iff_ne]
      intro hd
      exact hnot ⟨hu, hd⟩
    · left
      rw [beq_eq_false_iff_ne]
      exact hu
  · intro t ht
    rw [htasks] at ht
    exact (List.mem_filter.mp ht).1
  · intro u d hnot
    rw [get_note, get_note, hnotes]
    rw [find?_filter_of_imp]
    intro n hpn
    simp only [Bool.and_eq_true, beq_iff_eq] at hpn
    simp only [Bool.not_eq_true', Bool.and_eq_false_iff]
    by_cases hu : n.user_id = uid
    · right
      rw [beq_eq_false_iff_ne]
      intro hd
      exact hnot ⟨hpn.1.symm.trans hu, hpn.2.symm.trans hd⟩
    · left
      rw [beq_eq_false_iff_ne]
      exact hu

/-- C8: the summary and finalize branches of `on_button` return the database
unchanged; finalize reports `(done, total)` over today's list, the matching
feedback tier and the saved note; and a second finalize with no intervening
mutation returns the identical pair. -/
theorem finalize_summary_spec (db : DB) (uid : Nat) (day : String) :
    (on_button db uid day .summary).1 = db ∧
    (on_button db uid day .finalize).1 = db ∧
    (on_button db uid day .summary).2 =
      .summaryShown ((list_tasks db uid day).countP (fun t => t.done))
        (list_tasks db uid day).length ∧
    (on_button db uid day .finalize).2 =
      .finalized ((list_tasks db uid day).countP (fun t => t.done))
        (list_tasks db uid day).length
        (feedback_text ((list_tasks db uid day).countP (fun t => t.done))
          (list_tasks db uid day).length)
        (get_note db uid day) ∧
    on_button (on_button db uid day .finalize).1 uid day .finalize =
      on_button db uid day .finalize :=
  ⟨rfl, rfl, rfl, rfl, rfl⟩

theorem upsert_user_markers (db : DB) (uid cid : Nat) :
    ∀ r ∈ db.users, ∃ r' ∈ (upsert_user db uid cid).users,
      r'.user_id = r.user_id ∧ r'.last_6pm = r.last_6pm ∧
      r'.last_1150 = r.last_1150 := by
  intro r hr
  unfold upsert_user
  by_cases hex : db.users.any (fun u => u.user_id == uid)
  · rw [if_pos hex]
    refine ⟨_, List.mem_map_of_mem _ hr, ?_⟩
    by_cases h : r.user_id == uid <;> simp [h]
  · rw [if_neg hex]
    exact ⟨r, List.mem_append_left _ hr, rfl, rfl, rfl⟩

theorem upsert_user_WF (db : DB) (uid cid : Nat) (hwf : db.WF) :
    (upsert_user db uid cid).WF := by
  obtain ⟨h1, h2, h3⟩ := hwf
  unfold upsert_user
  by_cases hex : db.users.any (fun u => u.user_id == uid)
  · rw [if_pos hex]
    refine ⟨h1, h2, ?_⟩
    have hids : (db.users.map
        (fun u => if u.user_id == uid then { u with chat_id := cid } else u)).map
          (·.user_id) = db.users.map (·.user_id) := by
      rw [List.map_map]
      apply List.map_congr_left
      intro u _
      simp only [Function.comp_apply]
      split <;> rfl
    rw [hids]
    exact h3
  · rw [if_neg hex]
    refine ⟨h1, h2, ?_⟩
    have hnm : uid ∉ db.users.map (·.user_id) := by
      intro hm
      obtain ⟨u, hu, hid⟩ := List.mem_map.mp hm
      exact hex (List.any_eq_true.mpr ⟨u, hu, by simp [hid]⟩)
    simp only [List.map_append, List.map_cons, List.map_nil]
    rw [List.nodup_append]
    refine ⟨h3, List.nodup_singleton _, ?_⟩
    intro a ha hb
    rw [List.mem_singleton] at hb
    subst hb
    exact hnm ha

/-- C5 counterexample: calling `/add` with text that strips to empty on a
fresh store reports the validation failure, yet the state is mutated — the
user upsert that precedes the validation check creates the user row.  This
contradicts the claim that no state is created or mutated in that case. -/
theorem add_command_empty_mutates :
    (add_command ⟨[], [], [], 1⟩ 1 5 "2024-01-01" "").2 = false ∧
    (add_command ⟨[], [], [], 1⟩ 1 5 "2024-01-01" "").1 ≠ ⟨[], [], [], 1⟩ := by
  refine ⟨rfl, ?_⟩
  decide

/-- C5 (amended): when the text strips to empty the add command fails and
creates no task — tasks, notes and every user's reminder markers are
untouched, although the user upsert preceding validation may still create
the user row or rewrite its `chat_id`; otherwise exactly one task is
appended for the (user, day) with `done = false` and a task id fresh with
respect to every stored task. -/
theorem add_command_spec (db : DB) (uid cid : Nat) (day raw : String)
    (hwf : db.WF) :
    (strip raw = "" →
       (add_command db uid cid day raw).2 = false ∧
       (add_command db uid cid day raw).1.tasks = db.tasks ∧
       (add_command db uid cid day raw).1.notes = db.notes ∧
       (∀ r ∈ db.users, ∃ r' ∈ (add_command db uid cid day raw).1.users,
          r'.user_id = r.user_id ∧ r'.last_6pm = r.last_6pm ∧
          r'.last_1150 = r.last_1150)) ∧
    (strip raw ≠ "" →
       (add_command db uid cid day raw).2 = true ∧
       (add_command db uid cid day raw).1.tasks =
         db.tasks ++ [⟨db.nextId, uid, day, strip raw, false⟩] ∧
       (∀ t ∈ db.tasks, t.task_id ≠ db.nextId) ∧
       (add_command db uid cid day raw).1.notes = db.notes ∧
       (add_command db uid cid day raw).1.WF) := by
  have hcmd_empty : strip raw = "" →
      add_command db uid cid day raw = (upsert_user db uid cid, false) := by
    intro h
    simp [add_command, h]
  have hcmd_ne : strip raw ≠ "" →
      add_command db uid cid day raw =
        (add_task (upsert_user db uid cid) uid day (strip raw), true) := by
    intro h
    simp [add_command, h]
  constructor
  · intro hempty
    rw [hcmd_empty hempty]
    exact ⟨rfl, upsert_user_tasks db uid cid, upsert_user_notes db uid cid,
      upsert_user_markers db uid cid⟩
  · intro hne
    rw [hcmd_ne hne]
    obtain ⟨h1, h2, h3⟩ := upsert_user_WF db uid cid hwf
    refine ⟨rfl, ?_, ?_, ?_, ?_⟩
    · simp only [add_task]
      rw [upsert_user_tasks, upsert_user_nextId]
    · intro t ht
      exact Nat.ne_of_lt (hwf.2.1 t ht)
    · simp only [add_task]
      rw [upsert_user_notes]
    · refine ⟨?_, ?_, ?_⟩
      · simp only [add_task, List.map_append, List.map_cons, List.map_nil]
        rw [List.nodup_append]
        refine ⟨h1, List.nodup_singleton _, ?_⟩
        intro a ha hb
        rw [List.mem_singleton] at hb
        subst hb
        obtain ⟨t, ht, hid⟩ := List.mem_map.mp ha
        exact Nat.ne_of_lt (h2 t ht) hid
      · simp only [add_task]
        intro t ht
        rcases List.mem_append.mp ht with hmem | hmem
        · exact Nat.lt_succ_of_lt (h2 t hmem)
        · rw [List.mem_singleton] at hmem
          subst hmem
          exact Nat.lt_succ_self _
      · simpa [add_task] using h3

/-- C5 witness: adding "Gym" to a fresh store creates exactly the task
`task_id = 1`, owner 1, day 2024-01-01, `done = false`. -/
theorem add_command_spec_witness :
    (add_command ⟨[], [], [], 1⟩ 1 5 "2024-01-01" "Gym").1.tasks =
      [⟨1, 1, "2024-01-01", "Gym", false⟩] := by
  have h := add_command_spec ⟨[], [], [], 1⟩ 1 5 "2024-01-01" "Gym" (by decide)
  have h2 := (h.2 (by decide)).2.1
  rw [h2]
  decide

/-! ### Lemmas about users, markers and due sets -/

theorem user_unique_id {db : DB} (hnd : (db.users.map (·.user_id)).Nodup)
    {s t : UserRow} (hs : s ∈ db.users) (ht : t ∈ db.users)
    (h : s.user_id = t.user_id) : s = t :=
  List.inj_on_of_nodup_map hnd hs ht h

theorem due_pred_iff (m : Option String) (day : String) :
    (m.isNone || !(m == some day)) = true ↔ m ≠ some day := by
  cases m <;> simp

theorem setMarker_user_id (which day : String) (u : UserRow) :
    (setMarker which day u).user_id = u.user_id := by
  unfold setMarker
  split
  · rfl
  · split <;> rfl

theorem setMarker_chat_id (which day : String) (u : UserRow) :
    (setMarker which day u).chat_id = u.chat_id := by
  unfold setMarker
  split
  · rfl
  · split <;> rfl

theorem setMarker_idem (which day : String) (u : UserRow) :
    setMarker which day (setMarker which day u) = setMarker which day u := by
  unfold setMarker
  split
  · rfl
  · split <;> rfl

theorem marker_setMarker (which day : String) (u : UserRow)
    (hw : which = "6pm" ∨ which = "1150") :
    (setMarker which day u).marker which = some day := by
  rcases hw with rfl | rfl <;> rfl

theorem marker_setMarker_other (which whichB day : String) (u : UserRow)
    (hwB : whichB = "6pm" ∨ whichB = "1150") (hne : whichB ≠ which) :
    (setMarker which day u).marker whichB = u.marker whichB := by
  have hred : ¬which = "6pm" → ¬which = "1150" → setMarker which day u = u := by
    intro h6 h11
    rw [setMarker, if_neg h6, if_neg h11]
  rcases hwB with rfl | rfl
  · by_cases h6 : which = "6pm"
    · exact absurd h6.symm hne
    · by_cases h11 : which = "1150"
      · subst h11; rfl
      · rw [hred h6 h11]
  · by_cases h6 : which = "6pm"
    · subst h6; rfl
    · by_cases h11 : which = "1150"
      · exact absurd h11.symm hne
      · rw [hred h6 h11]

theorem set_last_sent_users (db : DB) (uid : Nat) (which day : String) :
    (set_last_sent db uid which day).users =
      db.users.map (fun u => if u.user_id == uid then setMarker which day u else u) := by
  by_cases h6 : which = "6pm"
  · subst h6; rfl
  · by_cases h11 : which = "1150"
    · subst h11; rfl
    · rw [set_last_sent, if_neg h6, if_neg h11]
      have hid : ∀ u ∈ db.users,
          (if u.user_id == uid then setMarker which day u else u) = id u := by
        intro u _
        simp only [setMarker, if_neg h6, if_neg h11, id]
        split <;> rfl
      rw [List.map_congr_left hid, List.map_id]

theorem set_last_sent_tasks (db : DB) (uid : Nat) (which day : String) :
    (set_last_sent db uid which day).tasks = db.tasks := by
  unfold set_last_sent
  split
  · rfl
  · split <;> rfl

theorem set_last_sent_notes (db : DB) (uid : Nat) (which day : String) :
    (set_last_sent db uid which day).notes = db.notes := by
  unfold set_last_sent
  split
  · rfl
  · split <;> rfl

theorem due_users_eq (db : DB) (which day : String) :
    due_users db which day =
      (db.users.filter
        (fun u => (u.marker which).isNone || !(u.marker which == some day))).map
        (fun u => (u.user_id, u.chat_id)) := by
  by_cases h6 : which = "6pm"
  · subst h6; rfl
  · rw [due_users, if_neg h6]
    have hmk : ∀ u ∈ db.users,
        (u.last_1150.isNone || !(u.last_1150 == some day)) =
          ((u.marker which).isNone || !(u.marker which == some day)) := by
      intro u _
      rw [UserRow.marker, if_neg h6]
    rw [List.filter_congr hmk]

theorem filter_map_proj_eq {β : Type} (l : List UserRow) (f : UserRow → UserRow)
    (p : UserRow → Bool) (g : UserRow → β)
    (hp : ∀ u, p (f u) = p u) (hg : ∀ u, g (f u) = g u) :
    ((l.map f).filter p).map g = (l.filter p).map g := by
  induction l with
  | nil => rfl
  | cons a l ih =>
    rw [List.map_cons, List.filter_cons, List.filter_cons, hp]
    by_cases h : p a = true
    · rw [if_pos h, if_pos h, List.map_cons, List.map_cons, hg, ih]
    · rw [if_neg (by simp [h]), if_neg (by simp [h]), ih]

/-- C2: a user row is in the due set for a kind and day iff its marker for
that kind is absent or differs from the day; `set_last_sent` writes the
marker, after which the user is excluded from that day's due set but
included again for any other day; and marking one kind never changes the
other kind's due set. -/
theorem due_users_marksent_spec (db : DB) (uid : Nat) (which day : String)
    (hwf : db.WF) (hwhich : which = "6pm" ∨ which = "1150") :
    (∀ r ∈ db.users, ((r.user_id, r.chat_id) ∈ due_users db which day ↔
        r.marker which ≠ some day)) ∧
    (∀ u ∈ (set_last_sent db uid which day).users,
        u.user_id = uid → u.marker which = some day) ∧
    uid ∉ (due_users (set_last_sent db uid which day) which day).map Prod.fst ∧
    (∀ r ∈ db.users, r.user_id = uid → ∀ dayB : String, dayB ≠ day →
        uid ∈ (due_users (set_last_sent db uid which day) which dayB).map Prod.fst) ∧
    (∀ whichB : String, (whichB = "6pm" ∨ whichB = "1150") → whichB ≠ which →
        ∀ dayB : String,
          due_users (set_last_sent db uid which day) whichB dayB =
            due_users db whichB dayB) := by
  obtain ⟨-, -, hnd⟩ := hwf
  refine ⟨?_, ?_, ?_, ?_, ?_⟩
  · intro r hr
    rw [due_users_eq]
    constructor
    · intro hmem
      obtain ⟨u, hu, hpe⟩ := List.mem_map.mp hmem
      obtain ⟨huu, hup⟩ := List.mem_filter.mp hu
      have hur : u = r := user_unique_id hnd huu hr (by
        have := congrArg Prod.fst hpe
        simpa using this)
      exact (due_pred_iff _ _).mp (hur ▸ hup)
    · intro hneq
      exact List.mem_map.mpr
        ⟨r, List.mem_filter.mpr ⟨hr, (due_pred_iff _ _).mpr hneq⟩, rfl⟩
  · intro u hu hid
    rw [set_last_sent_users] at hu
    obtain ⟨v, hv, rfl⟩ := List.mem_map.mp hu
    by_cases h : v.user_id == uid
    · rw [if_pos h]
      exact marker_setMarker which day v hwhich
    · rw [if_neg h] at hid
      exact absurd hid (by simpa using h)
  · intro hmem
    rw [due_users_eq, List.map_map] at hmem
    obtain ⟨u, hu, huid⟩ := List.mem_map.mp hmem
    obtain ⟨huu, hq⟩ := List.mem_filter.mp hu
    rw [set_last_sent_users] at huu
    obtain ⟨v, hv, rfl⟩ := List.mem_map.mp huu
    by_cases h : v.user_id == uid
    · rw [if_pos h] at hq
      rw [marker_setMarker which day v hwhich] at hq
      simp at hq
    · rw [if_neg h] at huid
      exact absurd huid (by simpa using h)
  · intro r hr hid dayB hBne
    rw [due_users_eq, set_last_sent_users, List.map_map]
    refine List.mem_map.mpr
      ⟨(fun u : UserRow => if u.user_id == uid then setMarker which day u else u) r,
        List.mem_filter.mpr ⟨List.mem_map_of_mem _ hr, ?_⟩, ?_⟩
    · simp only [Function.comp_apply]
      rw [if_pos (by simpa using hid)]
      rw [marker_setMarker which day r hwhich]
      simpa using fun hcontra => hBne (by simpa using hcontra.symm)
    · simp only [Function.comp_apply]
      rw [if_pos (by simpa using hid)]
      rw [setMarker_user_id]
      exact hid
  · intro whichB hwB hBne dayB
    rw [due_users_eq, due_users_eq, set_last_sent_users]
    apply filter_map_proj_eq
    · intro u
      by_cases h : u.user_id == uid
      · rw [if_pos h, marker_setMarker_other which whichB day u hwB hBne]
      · rw [if_neg h]
    · intro u
      by_cases h : u.user_id == uid
      · rw [if_pos h, setMarker_user_id, setMarker_chat_id]
      · rw [if_neg h]

/-- C2 witness: after marking the 6pm reminder sent to user 1 for
2024-01-01, user 1 is no longer due for that kind on 2024-01-01 but is due
again on 2024-01-02. -/
theorem due_users_marksent_spec_witness :
    1 ∉ (due_users (set_last_sent ⟨[⟨1, 9, none, none⟩], [], [], 1⟩ 1 "6pm"
          "2024-01-01") "6pm" "2024-01-01").map Prod.fst ∧
    1 ∈ (due_users (set_last_sent ⟨[⟨1, 9, none, none⟩], [], [], 1⟩ 1 "6pm"
          "2024-01-01") "6pm" "2024-01-02").map Prod.fst := by
  have h := due_users_marksent_spec ⟨[⟨1, 9, none, none⟩], [], [], 1⟩ 1 "6pm"
    "2024-01-01" (by decide) (Or.inl rfl)
  exact ⟨h.2.2.1, h.2.2.2.1 ⟨1, 9, none, none⟩ (by simp) rfl "2024-01-02" (by decide)⟩

/-! ### The scheduler loop (C9) -/

theorem findUser_map (l : List UserRow) (f : UserRow → UserRow) (uid : Nat)
    (hid : ∀ u, (f u).user_id = u.user_id) :
    (l.map f).find? (fun u => u.user_id == uid) =
      (l.find? (fun u => u.user_id == uid)).map f := by
  induction l with
  | nil => rfl
  | cons a l ih =>
    rw [List.map_cons]
    by_cases h : (a.user_id == uid) = true
    · rw [List.find?_cons_of_pos, List.find?_cons_of_pos]
      · rfl
      · exact h
      · show ((f a).user_id == uid) = true
        rw [hid]
        exact h
    · rw [List.find?_cons_of_neg, List.find?_cons_of_neg, ih]
      · exact h
      · show ¬((f a).user_id == uid) = true
        rw [hid]
        exact h

theorem find?_userid_eq_of_mem (l : List UserRow)
    (hnd : (l.map (·.user_id)).Nodup) (r : UserRow) (hr : r ∈ l) :
    l.find? (fun u => u.user_id == r.user_id) = some r := by
  induction l with
  | nil => cases hr
  | cons a l ih =>
    rw [List.map_cons, List.nodup_cons] at hnd
    rcases List.mem_cons.mp hr with rfl | hr2
    · rw [List.find?_cons_of_pos]
      simp
    · by_cases h : (a.user_id == r.user_id) = true
      · exfalso
        have hm : r.user_id ∈ l.map (·.user_id) := List.mem_map_of_mem _ hr2
        rw [← beq_iff_eq.mp h] at hm
        exact hnd.1 hm
      · rw [List.find?_cons_of_neg]
        · exact ih hnd.2 hr2
        · exact h

theorem findUser_set_last_sent (db : DB) (v uid : Nat) (which day : String) :
    findUser (set_last_sent db v which day) uid =
      if v = uid then (findUser db uid).map (setMarker which day)
      else findUser db uid := by
  unfold findUser
  rw [set_last_sent_users,
    findUser_map _ _ uid (fun u => by
      by_cases h : u.user_id == v <;> simp [h, setMarker_user_id])]
  by_cases hv : v = uid
  · rw [if_pos hv]
    subst hv
    cases hfind : db.users.find? (fun u => u.user_id == v) with
    | none => rfl
    | some u0 =>
      have hp := List.find?_some hfind
      simp only [Option.map_some']
      rw [if_pos (by simpa using hp)]
  · rw [if_neg hv]
    cases hfind : db.users.find? (fun u => u.user_id == uid) with
    | none => rfl
    | some u0 =>
      have hp := List.find?_some hfind
      have hp2 : u0.user_id = uid := by simpa using hp
      simp only [Option.map_some']
      rw [if_neg (by
        rw [hp2]
        simpa using fun hc => hv hc.symm)]

theorem option_map_setMarker_idem (which day : String) (o : Option UserRow) :
    (o.map (setMarker which day)).map (setMarker which day) =
      o.map (setMarker which day) := by
  cases o with
  | none => rfl
  | some u => simp [setMarker_idem]

theorem run_job_foldl_findUser (l : List (Nat × Nat)) (db : DB)
    (which day : String) (sendOk : Nat → Bool) (uid : Nat) :
    findUser (l.foldl
      (fun acc u => if sendOk u.1 then set_last_sent acc u.1 which day else acc)
      db) uid =
      if l.any (fun u => u.1 == uid) && sendOk uid then
        (findUser db uid).map (setMarker which day)
      else findUser db uid := by
  induction l generalizing db with
  | nil => simp
  | cons p l ih =>
    rw [List.foldl_cons, List.any_cons]
    by_cases hs : sendOk p.1 = true
    · rw [if_pos hs, ih]
      by_cases hp : p.1 = uid
      · subst hp
        have heq : findUser (set_last_sent db p.1 which day) p.1 =
            (findUser db p.1).map (setMarker which day) := by
          rw [findUser_set_last_sent, if_pos rfl]
        rw [heq]
        have hc2 : ((p.1 == p.1 || l.any fun u => u.1 == p.1) && sendOk p.1)
            = true := by
          rw [hs]
          simp
        rw [if_pos hc2]
        by_cases h1 : (l.any (fun u => u.1 == p.1) && sendOk p.1) = true
        · rw [if_pos h1, option_map_setMarker_idem]
        · rw [if_neg h1]
      · have heq : findUser (set_last_sent db p.1 which day) uid =
            findUser db uid := by
          rw [findUser_set_last_sent, if_neg hp]
        rw [heq, beq_eq_false_iff_ne.mpr hp, Bool.false_or]
    · rw [if_neg hs, ih]
      by_cases hp : p.1 = uid
      · subst hp
        have hsf : sendOk p.1 = false := by
          cases hval : sendOk p.1
          · rfl
          · exact absurd hval hs
        rw [hsf]
        simp
      · rw [beq_eq_false_iff_ne.mpr hp, Bool.false_or]

theorem due_any_iff (db : DB) (which day : String) (r : UserRow)
    (hnd : (db.users.map (·.user_id)).Nodup) (hr : r ∈ db.users) :
    ((due_users db which day).any (fun u => u.1 == r.user_id) = true) ↔
      r.marker which ≠ some day := by
  rw [due_users_eq]
  constructor
  · intro h
    obtain ⟨p, hp, hpe⟩ := List.any_eq_true.mp h
    obtain ⟨u, hu, rfl⟩ := List.mem_map.mp hp
    obtain ⟨huu, hup⟩ := List.mem_filter.mp hu
    have : u = r := user_unique_id hnd huu hr (by simpa using hpe)
    exact (due_pred_iff _ _).mp (this ▸ hup)
  · intro h
    exact List.any_eq_true.mpr ⟨(r.user_id, r.chat_id),
      List.mem_map_of_mem _ (List.mem_filter.mpr ⟨hr, (due_pred_iff _ _).mpr h⟩),
      by simp⟩

/-- C9: in one scheduler firing for a kind, a due user's marker becomes the
current day exactly when that user's dispatch succeeds; a failed dispatch
leaves the user's row untouched (so the user stays due for the next firing),
and every other due user is still processed — the final row of an arbitrary
user depends only on that user's own dispatch outcome. -/
theorem run_job_spec (db : DB) (which day : String) (sendOk : Nat → Bool)
    (hwf : db.WF) (hwhich : which = "6pm" ∨ which = "1150")
    (r : UserRow) (hr : r ∈ db.users) :
    (r.marker which ≠ some day → sendOk r.user_id = true →
       findUser (run_job db which day sendOk) r.user_id =
         some (setMarker which day r) ∧
       (setMarker which day r).marker which = some day) ∧
    (sendOk r.user_id = false →
       findUser (run_job db which day sendOk) r.user_id = some r) ∧
    (r.marker which = some day →
       findUser (run_job db which day sendOk) r.user_id = some r) := by
  obtain ⟨-, -, hnd⟩ := hwf
  have hfind : findUser db r.user_id = some r :=
    find?_userid_eq_of_mem db.users hnd r hr
  have hjob := run_job_foldl_findUser (due_users db which day) db which day
    sendOk r.user_id
  rw [run_job]
  refine ⟨?_, ?_, ?_⟩
  · intro hdue hok
    rw [hjob, if_pos (by
        rw [(due_any_iff db which day r hnd hr).mpr hdue, hok]
        rfl),
      hfind]
    exact ⟨rfl, marker_setMarker which day r hwhich⟩
  · intro hfail
    rw [hjob, if_neg (by rw [hfail, Bool.and_false]; exact Bool.false_ne_true),
      hfind]
  · intro hsent
    rw [hjob, if_neg (by
        have : (due_users db which day).any (fun u => u.1 == r.user_id) = false := by
          rw [Bool.eq_false_iff]
          intro hc
          exact (due_any_iff db which day r hnd hr).mp hc hsent
        rw [this, Bool.false_and]
        exact Bool.false_ne_true),
      hfind]

/-- C9 witness: two users both due for the 6pm firing of 2024-01-01; user
1's send succeeds and its marker is set, user 2's send fails and its row is
untouched, so user 2 stays due. -/
theorem run_job_spec_witness :
    findUser (run_job ⟨[⟨1, 9, none, none⟩, ⟨2, 8, none, none⟩], [], [], 1⟩
        "6pm" "2024-01-01" (fun u => u == 1)) 1 =
      some ⟨1, 9, some "2024-01-01", none⟩ ∧
    findUser (run_job ⟨[⟨1, 9, none, none⟩, ⟨2, 8, none, none⟩], [], [], 1⟩
        "6pm" "2024-01-01" (fun u => u == 1)) 2 =
      some ⟨2, 8, none, none⟩ := by
  have h1 := run_job_spec ⟨[⟨1, 9, none, none⟩, ⟨2, 8, none, none⟩], [], [], 1⟩
    "6pm" "2024-01-01" (fun u => u == 1) (by decide) (Or.inl rfl)
    ⟨1, 9, none, none⟩ (by simp)
  have h2 := run_job_spec ⟨[⟨1, 9, none, none⟩, ⟨2, 8, none, none⟩], [], [], 1⟩
    "6pm" "2024-01-01" (fun u => u == 1) (by decide) (Or.inl rfl)
    ⟨2, 8, none, none⟩ (by simp)
  exact ⟨(h1.1 (by decide) (by decide)).1, h2.2.1 (by decide)⟩

/-- C10: upserting an existing user only rewrites that row's `chat_id`:
every user's two reminder markers, the task table, the note table and the id
counter are unchanged, and the set of due user ids for either kind and any
day is exactly what it was — re-registering never resets reminder
due-state. -/
theorem upsert_user_spec (db : DB) (uid cid : Nat)
    (hex : db.users.any (fun u => u.user_id == uid) = true) :
    (upsert_user db uid cid).tasks = db.tasks ∧
    (upsert_user db uid cid).notes = db.notes ∧
    (upsert_user db uid cid).nextId = db.nextId ∧
    (upsert_user db uid cid).users =
      db.users.map
        (fun u => if u.user_id == uid then { u with chat_id := cid } else u) ∧
    (∀ u ∈ db.users, ∃ v ∈ (upsert_user db uid cid).users,
       v.user_id = u.user_id ∧ v.last_6pm = u.last_6pm ∧
       v.last_1150 = u.last_1150) ∧
    (∀ which day : String,
       (due_users (upsert_user db uid cid) which day).map Prod.fst =
         (due_users db which day).map Prod.fst) := by
  have husers : (upsert_user db uid cid).users =
      db.users.map
        (fun u => if u.user_id == uid then { u with chat_id := cid } else u) := by
    rw [upsert_user, if_pos hex]
  refine ⟨upsert_user_tasks db uid cid, upsert_user_notes db uid cid,
    upsert_user_nextId db uid cid, husers, upsert_user_markers db uid cid, ?_⟩
  intro which day
  rw [due_users_eq, due_users_eq, List.map_map, List.map_map, husers]
  apply filter_map_proj_eq
  · intro u
    by_cases h : u.user_id == uid
    · rw [if_pos h]
      rfl
    · rw [if_neg h]
  · intro u
    by_cases h : u.user_id == uid
    · rw [if_pos h]
      rfl
    · rw [if_neg h]

/-- C10 witness: upserting user 1 with a new chat id rewrites only the chat
id; the already-set 6pm marker survives. -/
theorem upsert_user_spec_witness :
    (upsert_user ⟨[⟨1, 9, some "2024-01-01", none⟩], [], [], 1⟩ 1 42).users =
      [⟨1, 42, some "2024-01-01", none⟩] := by
  have h := upsert_user_spec ⟨[⟨1, 9, some "2024-01-01", none⟩], [], [], 1⟩ 1 42
    (by decide)
  rw [h.2.2.2.1]
  decide

end RemindMe
